import Mathlib

/-!
Shallow embedding of the dining-waste React frontend: each page of the
repository (Menu, Metrics, OptimizeMenu, WasteTrend, Admin, TrashOfToday)
issues plain HTTP requests to a hardcoded backend address and reflects the
responses into local view state.  The request sites, the form-submit
handlers and the derived view state are translated into Lean definitions
below, and the claims of the specification are settled as theorems at the
end of the file.

Conventions for translating the JavaScript:
* a JS string is a Lean `String`; the falsy string is `""`;
* a possibly-absent JS value is an `Option`;
* a JS number is a `Rat` (the pages perform no float-specific arithmetic);
* a JS value that may hold either a number or a string (form fields that
  are initialised with a numeric literal and overwritten with input text)
  is a `JsVal`;
* `a || b`, where `a` is a possibly-absent string, is `jsOrString`;
* the JS `Number(x)` and `parseFloat(x)` string-to-number coercions are
  abstract function parameters, since no claim depends on their numeric
  behaviour;
* an awaited axios call is a handler parameter of type `Outcome`, holding
  either the parsed response data or the caught HTTP error.
-/

namespace HackathonUI

/-- HTTP method of a request issued by a page. -/
inductive Method
  | get
  | post
deriving DecidableEq, Repr

/-- An HTTP request as issued by a page: method, hardcoded base URL, path. -/
structure Request where
  method : Method
  base : String
  path : String
deriving DecidableEq, Repr

/-- The caught axios error; `responseError` is the possibly-absent string
`e.response?.data?.error`. -/
structure HttpError where
  responseError : Option String
deriving DecidableEq, Repr

/-- Result of an awaited axios call: parsed response data, or the error
 caught by the surrounding try/catch. -/
inductive Outcome (α : Type)
  | ok (data : α)
  | httpError (e : HttpError)

/-- The JS `a || b` for a possibly-absent string `a`: the static fallback is
used when `a` is absent or empty (falsy). -/
def jsOrString : Option String → String → String
  | none, d => d
  | some s, d => if s = "" then d else s

/-- The JS `s.trim()`: drop whitespace from both ends of the string. -/
def jsTrim (s : String) : String :=
  ⟨((s.data.dropWhile Char.isWhitespace).reverse.dropWhile Char.isWhitespace).reverse⟩

/-- A JS value that is either a number or a string. -/
inductive JsVal
  | num (q : ℚ)
  | str (s : String)
deriving DecidableEq, Repr

/-- The JS `Number(v)` coercion, with the string case abstracted as `jsNum`. -/
def jsNumberOf (jsNum : String → ℚ) : JsVal → ℚ
  | .num q => q
  | .str s => jsNum s

/-- A `{ type, message }` status record as stored by the Admin and
WasteTrend pages. -/
structure StatusMsg where
  type : String
  message : String
deriving DecidableEq, Repr

/-! ## Hardcoded `API_URL` constants, one per page, exactly as in the sources -/

def API_URL_Menu : String := "http://127.0.0.1:5001"

def API_URL_Metrics : String := "http://127.0.0.1:5001"

def API_URL_OptimizeMenu : String := "http://127.0.0.1:5001"

def API_URL_WasteTrend : String := "http://127.0.0.1:5001"

def API_URL_Admin : String := "http://127.0.0.1:5000"

def API_URL_TrashOfToday : String := "http://127.0.0.1:5000"

/-! ## The axios request sites, one definition per call site -/

/-- Menu: `axios.get` of `/dishes_waste_rates`. -/
def menuFetchDishesRequest : Request :=
  ⟨.get, API_URL_Menu, "/dishes_waste_rates"⟩

/-- Metrics.fetchSummary: `axios.get` of `/days_overview`. -/
def metricsFetchSummaryRequest : Request :=
  ⟨.get, API_URL_Metrics, "/days_overview"⟩

/-- Metrics.fetchDishes: `axios.get` of `/dishes_waste_rates`. -/
def metricsFetchDishesRequest : Request :=
  ⟨.get, API_URL_Metrics, "/dishes_waste_rates"⟩

/-- Metrics.handleImpactSubmit: `axios.post` of `/predict_waste_impact`. -/
def metricsImpactRequest : Request :=
  ⟨.post, API_URL_Metrics, "/predict_waste_impact"⟩

/-- Metrics.handleTopDishDay: `axios.get` of `/day/${dateInput}/top_dish`. -/
def metricsTopDishDayRequest (dateInput : String) : Request :=
  ⟨.get, API_URL_Metrics, "/day/" ++ dateInput ++ "/top_dish"⟩

/-- OptimizeMenu.fetchDishes: `axios.get` of `/dishes_waste_rates`. -/
def optimizeFetchDishesRequest : Request :=
  ⟨.get, API_URL_OptimizeMenu, "/dishes_waste_rates"⟩

/-- OptimizeMenu.handleSubmit: `axios.post` of `/optimize_menu`. -/
def optimizeSubmitRequest : Request :=
  ⟨.post, API_URL_OptimizeMenu, "/optimize_menu"⟩

/-- WasteTrend.handleSubmit: `axios.post` of `/waste_trend_chart`. -/
def wasteTrendRequest : Request :=
  ⟨.post, API_URL_WasteTrend, "/waste_trend_chart"⟩

/-- Admin.handleSubmit: `axios.post` of `/add_day`. -/
def adminAddDayRequest : Request :=
  ⟨.post, API_URL_Admin, "/add_day"⟩

/-- TrashOfToday: `axios.get` of `/day/${today}/top_dish`. -/
def trashOfTodayRequest (today : String) : Request :=
  ⟨.get, API_URL_TrashOfToday, "/day/" ++ today ++ "/top_dish"⟩

/-- The pages of the application that issue HTTP requests. -/
inductive Page
  | menu
  | metrics
  | optimizeMenu
  | wasteTrend
  | admin
  | trashOfToday
deriving DecidableEq, Repr

/-- The hardcoded base URL of each page. -/
def pageBaseURL : Page → String
  | .menu => API_URL_Menu
  | .metrics => API_URL_Metrics
  | .optimizeMenu => API_URL_OptimizeMenu
  | .wasteTrend => API_URL_WasteTrend
  | .admin => API_URL_Admin
  | .trashOfToday => API_URL_TrashOfToday

/-- `pageIssues p r` holds when page `p` can issue request `r` for some
value of its inputs: one disjunct per axios call site of the page, with the
guard of Metrics.handleTopDishDay (`if (!dateInput) return`) restricting its
date to non-empty strings. -/
def pageIssues : Page → Request → Prop
  | .menu, r => r = menuFetchDishesRequest
  | .metrics, r =>
      r = metricsFetchSummaryRequest ∨ r = metricsFetchDishesRequest ∨
      r = metricsImpactRequest ∨ ∃ d, d ≠ "" ∧ r = metricsTopDishDayRequest d
  | .optimizeMenu, r => r = optimizeFetchDishesRequest ∨ r = optimizeSubmitRequest
  | .wasteTrend, r => r = wasteTrendRequest
  | .admin, r => r = adminAddDayRequest
  | .trashOfToday, r => ∃ d, r = trashOfTodayRequest d

/-- The seven endpoint patterns listed by the specification. -/
inductive SpecEndpoint
  | dishesWasteRates
  | daysOverview
  | dayTopDish
  | optimizeMenu
  | predictWasteImpact
  | wasteTrendChart
  | addDay
deriving DecidableEq, Repr

/-- A method/path pair matches a listed endpoint pattern; the pattern
`/day/{date}/top_dish` matches every instantiation of its placeholder. -/
def matchesEndpoint : SpecEndpoint → Method → String → Prop
  | .dishesWasteRates, m, p => m = .get ∧ p = "/dishes_waste_rates"
  | .daysOverview, m, p => m = .get ∧ p = "/days_overview"
  | .dayTopDish, m, p => m = .get ∧ ∃ d, p = "/day/" ++ d ++ "/top_dish"
  | .optimizeMenu, m, p => m = .post ∧ p = "/optimize_menu"
  | .predictWasteImpact, m, p => m = .post ∧ p = "/predict_waste_impact"
  | .wasteTrendChart, m, p => m = .post ∧ p = "/waste_trend_chart"
  | .addDay, m, p => m = .post ∧ p = "/add_day"

/-! ## Error messages of the catch blocks

Each definition is the message computed by one catch block of the sources,
`e.response?.data?.error || "<static fallback>"`. -/

def impactErrorMessage (e : HttpError) : String :=
  jsOrString e.responseError "Failed to compute impact. Try another dish."

def dayErrorMessage (e : HttpError) : String :=
  jsOrString e.responseError "Could not load top dish for that date."

def addDayErrorMessage (e : HttpError) : String :=
  jsOrString e.responseError "Failed to add day. Check the data."

def optimizeErrorMessage (e : HttpError) : String :=
  jsOrString e.responseError "Failed to optimize menu. Check constraints."

def trendErrorMessage (e : HttpError) : String :=
  jsOrString e.responseError "Failed to generate chart. Check the dates."

/-! ## Metrics page -/

/-- One serving inside a day record of the `/days_overview` response; only
the `dish_name` field is read by the page, and it may be absent. -/
structure Serving where
  dish_name : Option String
deriving DecidableEq, Repr

/-- One day record of the `/days_overview` response, with the two fields
the page reads; either may be absent. -/
structure DayRecord where
  total_waste : Option ℚ
  servings : Option (List Serving)
deriving DecidableEq, Repr

/-- Body of a `/days_overview` response: either not an array (so that
`Array.isArray` fails) or an array of day records. -/
inductive DaysOverviewResponse
  | notArray
  | arr (days : List DayRecord)

/-- The `summary` object assembled by Metrics.fetchSummary. -/
structure SummaryState where
  totalDays : ℕ
  avgDailyWaste : ℚ
  totalWaste : ℚ
  dishCount : ℕ
deriving DecidableEq, Repr

/-- The dish-name `Set` built by Metrics.fetchSummary: for each serving of
each day, `if (s.dish_name) dishNames.add(s.dish_name)`, so a name is added
only when present and non-empty (truthy). -/
def collectDishNames (days : List DayRecord) : Finset String :=
  days.foldl (fun acc day =>
    (day.servings.getD []).foldl (fun a s =>
      match s.dish_name with
      | some n => if n = "" then a else insert n a
      | none => a) acc) ∅

/-- Metrics.fetchSummary: the `summary` state after the awaited call; `null`
when the call fails, when the body is not an array, or when it is empty. -/
def fetchSummaryResult : Outcome DaysOverviewResponse → Option SummaryState
  | .httpError _ => none
  | .ok .notArray => none
  | .ok (.arr days) =>
      if days.length = 0 then none
      else
        let totalWaste := days.foldl (fun acc day => acc + day.total_waste.getD 0) 0
        some ⟨days.length, totalWaste / (days.length : ℚ), totalWaste,
          (collectDishNames days).card⟩

/-- Spec-side reading of the claim: the distinct `dish_name` values present
across all servings of all days (including an empty-string value). -/
def specDishNameValues (days : List DayRecord) : Finset String :=
  (days.flatMap (fun day => (day.servings.getD []).filterMap Serving.dish_name)).toFinset

/-- Spec-side description of what the code counts: the distinct truthy
(present and non-empty) `dish_name` values across all servings. -/
def truthyDishNames (days : List DayRecord) : Finset String :=
  (days.flatMap (fun day =>
    ((day.servings.getD []).filterMap Serving.dish_name).filter (fun n => n != ""))).toFinset

/-- Spec-side description of the waste total: the sum over the days of
`total_waste`, an absent value contributing `0`. -/
def wasteSum (days : List DayRecord) : ℚ :=
  (days.map (fun day => day.total_waste.getD 0)).sum

/-- Response data of `/predict_waste_impact`, with the fields the page
renders. -/
structure ImpactChanges where
  daily_waste_reduction : ℚ
  daily_waste_rate_reduction : ℚ
deriving DecidableEq, Repr

structure ImpactAnalysis where
  daily_average_changes : ImpactChanges
deriving DecidableEq, Repr

structure ImpactData where
  current_waste_rate : ℚ
  analysis : ImpactAnalysis
deriving DecidableEq, Repr

/-- The `top_dish` object of a `/day/{date}/top_dish` response. -/
structure TopDishInfo where
  dish_name : String
  quantity : ℚ
  image_path : String
deriving DecidableEq, Repr

/-- Response data of `/day/{date}/top_dish`, with the fields the page
renders. -/
structure TopDishData where
  date : String
  top_dish : TopDishInfo
  total_dishes : ℚ
  total_serving : ℚ
deriving DecidableEq, Repr

/-- The form-related view state of the Metrics page. -/
structure MetricsFormState where
  selectedDish : String
  adjustment : JsVal
  impact : Option ImpactData
  impactError : Option String
  dateInput : String
  topDishDay : Option TopDishData
  dayError : Option String
deriving DecidableEq, Repr

/-- Metrics.handleImpactSubmit: guard on an empty `selectedDish`, clear the
previous impact state, issue the post, then store the data or the error
message. -/
def metricsHandleImpactSubmit (s : MetricsFormState) (o : Outcome ImpactData) :
    MetricsFormState × List Request :=
  if s.selectedDish = "" then (s, [])
  else
    let s0 := { s with impactError := none, impact := none }
    match o with
    | .ok d => ({ s0 with impact := some d }, [metricsImpactRequest])
    | .httpError e => ({ s0 with impactError := some (impactErrorMessage e) },
        [metricsImpactRequest])

/-- The response-processing part of Metrics.handleTopDishDay: the data of a
successful response unconditionally overwrites `topDishDay`; an error
stores the message. -/
def metricsApplyTopDishOutcome (s : MetricsFormState) (o : Outcome TopDishData) :
    MetricsFormState :=
  match o with
  | .ok d => { s with topDishDay := some d }
  | .httpError e => { s with dayError := some (dayErrorMessage e) }

/-- Metrics.handleTopDishDay: guard on an empty `dateInput`, clear the
previous state, issue the get, then apply the outcome. -/
def metricsHandleTopDishDay (s : MetricsFormState) (o : Outcome TopDishData) :
    MetricsFormState × List Request :=
  if s.dateInput = "" then (s, [])
  else
    let s0 := { s with dayError := none, topDishDay := none }
    (metricsApplyTopDishOutcome s0 o, [metricsTopDishDayRequest s.dateInput])

/-! ## WasteTrend page -/

/-- The `chart_data` object of a `/waste_trend_chart` response, with the
fields the page renders. -/
structure ChartData where
  image_base64 : String
  date_range : String
  total_days : ℚ
deriving DecidableEq, Repr

/-- Body of a `/waste_trend_chart` response: the page tests
`res.data && res.data.success && res.data.chart_data`. -/
structure TrendResponse where
  success : Bool
  chart_data : Option ChartData
deriving DecidableEq, Repr

/-- View state of the WasteTrend page. -/
structure WasteTrendState where
  startDate : String
  endDate : String
  status : Option StatusMsg
  chartData : Option ChartData
  loading : Bool
deriving DecidableEq, Repr

/-- The response-processing part of WasteTrend.handleSubmit: a successful
and chart-bearing response overwrites `chartData`; any other body yields
the static retry message; a caught error stores its message. -/
def wasteTrendApplyOutcome (s : WasteTrendState) (o : Outcome TrendResponse) :
    WasteTrendState :=
  match o with
  | .ok res =>
      match res.success, res.chart_data with
      | true, some cd => { s with chartData := some cd, status := none }
      | _, _ =>
        { s with status := some ⟨"error", "Could not generate chart. Please try again."⟩ }
  | .httpError e => { s with status := some ⟨"error", trendErrorMessage e⟩ }

/-- WasteTrend.handleSubmit: clear status and chart, validate the two date
fields, and only then issue the post and apply its outcome. -/
def wasteTrendHandleSubmit (s : WasteTrendState) (o : Outcome TrendResponse) :
    WasteTrendState × List Request :=
  let s0 := { s with status := none, chartData := none }
  if s0.startDate = "" ∨ s0.endDate = "" then
    ({ s0 with status := some ⟨"error", "Please select both start and end dates."⟩ }, [])
  else
    ({ wasteTrendApplyOutcome { s0 with loading := true } o with loading := false },
      [wasteTrendRequest])

/-! ## OptimizeMenu page -/

/-- The four category-requirement flags. -/
structure CategoryRequirements where
  require_staple : Bool
  require_vegetable : Bool
  require_protein : Bool
  require_dairy : Bool
deriving DecidableEq, Repr

/-- One per-dish constraint row of the `constraints` object: initialised
with numeric literals and overwritten with input strings. -/
structure DishConstraint where
  min : JsVal
  max : JsVal
deriving DecidableEq, Repr

/-- One dish of the `selected_dishes` list of an optimization result. -/
structure SelectedDish where
  dish_id : ℚ
  dish_name : String
  category : String
  image_path : String
  quantity : ℚ
  predicted_waste : ℚ
deriving DecidableEq, Repr

/-- The `optimization_result` object of an `/optimize_menu` response, with
the fields the page renders. -/
structure OptimizationResult where
  total_quantity : ℚ
  total_predicted_waste : ℚ
  waste_rate : ℚ
  selected_dishes : List SelectedDish
  optimization_status : String
deriving DecidableEq, Repr

/-- Body of an `/optimize_menu` response. -/
structure OptimizeResponse where
  optimization_result : OptimizationResult
deriving DecidableEq, Repr

/-- View state of the OptimizeMenu page.  The `constraints` JS object is an
association list of string keys (JS object keys are strings) in insertion
order, as enumerated by `Object.entries`. -/
structure OptimizeState where
  selectedIds : List ℚ
  constraints : List (String × DishConstraint)
  totalMin : JsVal
  totalMax : JsVal
  numDishes : JsVal
  requirements : CategoryRequirements
  result : Option OptimizationResult
  error : Option String
  loading : Bool

/-- The payload posted to `/optimize_menu`. -/
structure OptimizePayload where
  total_quantity_range : ℚ × ℚ
  num_dishes : ℚ
  dish_constraints : List (String × (ℚ × ℚ))
  category_requirements : CategoryRequirements
  available_dishes : List ℚ
deriving DecidableEq, Repr

/-- The payload assembly of OptimizeMenu.handleSubmit: the forEach over
`Object.entries(constraints)` building `dishConstraintsPayload` (on a
string key, `String(id)` is the key itself), then the payload literal. -/
def buildOptimizePayload (jsNum : String → ℚ) (s : OptimizeState) : OptimizePayload :=
  let dishConstraintsPayload :=
    s.constraints.foldl (fun acc p =>
      acc ++ [(p.1, (jsNumberOf jsNum p.2.min, jsNumberOf jsNum p.2.max))]) []
  { total_quantity_range := (jsNumberOf jsNum s.totalMin, jsNumberOf jsNum s.totalMax),
    num_dishes := jsNumberOf jsNum s.numDishes,
    dish_constraints := dishConstraintsPayload,
    category_requirements := s.requirements,
    available_dishes := s.selectedIds }

/-- OptimizeMenu.handleSubmit: clear error and result, post the payload,
then store `res.data.optimization_result` unchanged or the error message.
The emitted list pairs each issued request with the body it posts. -/
def optimizeHandleSubmit (jsNum : String → ℚ) (s : OptimizeState)
    (o : Outcome OptimizeResponse) : OptimizeState × List (Request × OptimizePayload) :=
  let s0 := { s with error := none, result := none, loading := true }
  match o with
  | .ok res =>
      ({ s0 with result := some res.optimization_result, loading := false },
        [(optimizeSubmitRequest, buildOptimizePayload jsNum s)])
  | .httpError e =>
      ({ s0 with error := some (optimizeErrorMessage e), loading := false },
        [(optimizeSubmitRequest, buildOptimizePayload jsNum s)])

/-! ## Admin page -/

/-- One row of the Admin servings form; all three fields are input text. -/
structure ServingRow where
  dish_name : String
  quantity : String
  image_path : String
deriving DecidableEq, Repr

/-- The blank row the servings list is initialised and refilled with. -/
def blankServingRow : ServingRow := ⟨"", "", ""⟩

/-- The three editable fields of a serving row. -/
inductive ServingField
  | dishName
  | quantity
  | imagePath
deriving DecidableEq, Repr

/-- Writing one field of a row. -/
def setServingField (r : ServingRow) : ServingField → String → ServingRow
  | .dishName, v => { r with dish_name := v }
  | .quantity, v => { r with quantity := v }
  | .imagePath, v => { r with image_path := v }

/-- Admin.handleServingChange: copy the list and overwrite one field of the
row at `i` (the page only calls it with an index of an existing row). -/
def handleServingChange (rows : List ServingRow) (i : ℕ) (f : ServingField)
    (v : String) : List ServingRow :=
  match rows[i]? with
  | some r => rows.set i (setServingField r f v)
  | none => rows

/-- Admin.addServingRow: append a blank row. -/
def addServingRow (rows : List ServingRow) : List ServingRow :=
  rows ++ [blankServingRow]

/-- Admin.removeServingRow: drop the row at `i` (the filter on indices),
and fall back to a single blank row when the result is empty. -/
def removeServingRow (rows : List ServingRow) (i : ℕ) : List ServingRow :=
  let updated := rows.eraseIdx i
  if updated.isEmpty then [blankServingRow] else updated

/-- One user operation on the servings list. -/
inductive AdminOp
  | add
  | remove (i : ℕ)
  | change (i : ℕ) (f : ServingField) (v : String)

/-- Apply one operation. -/
def applyAdminOp (rows : List ServingRow) : AdminOp → List ServingRow
  | .add => addServingRow rows
  | .remove i => removeServingRow rows i
  | .change i f v => handleServingChange rows i f v

/-- Run a sequence of operations from the initial single blank row. -/
def runAdminOps (ops : List AdminOp) : List ServingRow :=
  ops.foldl applyAdminOp [blankServingRow]

/-- One serving of the `/add_day` payload; `quantity` has the abstract
result type of `parseFloat`, and `image_path` is present only
conditionally. -/
structure PayloadServing (α : Type) where
  dish_name : String
  quantity : α
  image_path : Option String
deriving DecidableEq, Repr

/-- The servings list of the `/add_day` payload, as assembled by
Admin.handleSubmit: keep the rows whose trimmed `dish_name` is non-empty,
trim the name, convert the quantity, and attach `image_path` only when it
is truthy and non-blank after trimming. -/
def buildAddDayServings {α : Type} (pf : String → α) (rows : List ServingRow) :
    List (PayloadServing α) :=
  (rows.filter (fun s => jsTrim s.dish_name != "")).map (fun s =>
    if s.image_path != "" && jsTrim s.image_path != "" then
      ⟨jsTrim s.dish_name, pf s.quantity, some (jsTrim s.image_path)⟩
    else
      ⟨jsTrim s.dish_name, pf s.quantity, none⟩)

/-- View state of the Admin page. -/
structure AdminState where
  date : String
  totalWaste : String
  servings : List ServingRow
  status : Option StatusMsg
  loading : Bool
deriving DecidableEq, Repr

/-- The full `/add_day` payload. -/
structure AddDayPayload (α : Type) where
  date : String
  total_waste : α
  servings : List (PayloadServing α)
deriving DecidableEq, Repr

/-- The payload literal of Admin.handleSubmit. -/
def buildAddDayPayload {α : Type} (pf : String → α) (s : AdminState) :
    AddDayPayload α :=
  ⟨s.date, pf s.totalWaste, buildAddDayServings pf s.servings⟩

/-- Body of an `/add_day` response. -/
structure AddDayResponse where
  message : String
deriving DecidableEq, Repr

/-- Admin.handleSubmit: clear the status, post the payload, then either
show the response message and reset the form, or show the error message.
The emitted list pairs each issued request with the body it posts. -/
def adminHandleSubmit (pf : String → ℚ) (s : AdminState) (o : Outcome AddDayResponse) :
    AdminState × List (Request × AddDayPayload ℚ) :=
  let s0 := { s with status := none, loading := true }
  match o with
  | .ok res =>
      ({ s0 with
          status := some ⟨"success", res.message⟩
          date := ""
          totalWaste := ""
          servings := [blankServingRow]
          loading := false }, [(adminAddDayRequest, buildAddDayPayload pf s)])
  | .httpError e =>
      ({ s0 with status := some ⟨"error", addDayErrorMessage e⟩, loading := false },
        [(adminAddDayRequest, buildAddDayPayload pf s)])

/-! ## Request triggers -/

/-- The requests a page issues from its mount effect (a `useEffect` with an
empty dependency list); `today` instantiates the clock-dependent date of
TrashOfToday. -/
def mountRequests (today : String) : Page → List Request
  | .menu => [menuFetchDishesRequest]
  | .metrics => [metricsFetchSummaryRequest, metricsFetchDishesRequest]
  | .optimizeMenu => [optimizeFetchDishesRequest]
  | .wasteTrend => []
  | .admin => []
  | .trashOfToday => [trashOfTodayRequest today]

/-- `submitCanIssue p r` holds when some invocation of a form-submit
handler of page `p` emits request `r`. -/
def submitCanIssue : Page → Request → Prop
  | .menu, _ => False
  | .metrics, r =>
      (∃ s o, r ∈ (metricsHandleImpactSubmit s o).2) ∨
      (∃ s o, r ∈ (metricsHandleTopDishDay s o).2)
  | .optimizeMenu, r => ∃ jsNum s o, r ∈ ((optimizeHandleSubmit jsNum s o).2.map Prod.fst)
  | .wasteTrend, r => ∃ s o, r ∈ (wasteTrendHandleSubmit s o).2
  | .admin, r => ∃ pf s o, r ∈ ((adminHandleSubmit pf s o).2.map Prod.fst)
  | .trashOfToday, _ => False

/-- The UI event loop applies response continuations in arrival order:
each arriving outcome is folded into the state by the response-processing
part of its handler. -/
def processArrivals {σ δ : Type} (apply : σ → δ → σ) (s : σ) (arrivals : List δ) : σ :=
  arrivals.foldl apply s

/-! ## Theorems -/

/-- Claim C1: the set of backend endpoints invoked by the pages is exactly
the seven listed method/path pairs: every request any page can issue
matches one of the listed endpoint patterns, and every listed pattern is
issued by some page. -/
theorem endpoints_exactly_spec :
    (∀ p r, pageIssues p r → ∃ e, matchesEndpoint e r.method r.path) ∧
    (∀ e : SpecEndpoint, ∃ p r, pageIssues p r ∧ matchesEndpoint e r.method r.path) := by
  constructor
  · intro p r h
    cases p with
    | menu => exact ⟨.dishesWasteRates, by subst h; exact ⟨rfl, rfl⟩⟩
    | metrics =>
        rcases h with h | h | h | ⟨d, hd, h⟩
        · exact ⟨.daysOverview, by subst h; exact ⟨rfl, rfl⟩⟩
        · exact ⟨.dishesWasteRates, by subst h; exact ⟨rfl, rfl⟩⟩
        · exact ⟨.predictWasteImpact, by subst h; exact ⟨rfl, rfl⟩⟩
        · exact ⟨.dayTopDish, by subst h; exact ⟨rfl, d, rfl⟩⟩
    | optimizeMenu =>
        rcases h with h | h
        · exact ⟨.dishesWasteRates, by subst h; exact ⟨rfl, rfl⟩⟩
        · exact ⟨.optimizeMenu, by subst h; exact ⟨rfl, rfl⟩⟩
    | wasteTrend => exact ⟨.wasteTrendChart, by subst h; exact ⟨rfl, rfl⟩⟩
    | admin => exact ⟨.addDay, by subst h; exact ⟨rfl, rfl⟩⟩
    | trashOfToday =>
        rcases h with ⟨d, h⟩
        exact ⟨.dayTopDish, by subst h; exact ⟨rfl, d, rfl⟩⟩
  · intro e
    cases e with
    | dishesWasteRates => exact ⟨.menu, menuFetchDishesRequest, rfl, rfl, rfl⟩
    | daysOverview => exact ⟨.metrics, metricsFetchSummaryRequest, .inl rfl, rfl, rfl⟩
    | dayTopDish =>
        exact ⟨.metrics, metricsTopDishDayRequest "2024-01-01",
          .inr (.inr (.inr ⟨"2024-01-01", by decide, rfl⟩)), rfl, "2024-01-01", rfl⟩
    | optimizeMenu => exact ⟨.optimizeMenu, optimizeSubmitRequest, .inr rfl, rfl, rfl⟩
    | predictWasteImpact =>
        exact ⟨.metrics, metricsImpactRequest, .inr (.inr (.inl rfl)), rfl, rfl⟩
    | wasteTrendChart => exact ⟨.wasteTrend, wasteTrendRequest, rfl, rfl, rfl⟩
    | addDay => exact ⟨.admin, adminAddDayRequest, rfl, rfl, rfl⟩

/-- Witness for claim C1: the Menu page fetch request matches a listed
endpoint, by applying the main theorem at the concrete page and request. -/
theorem endpoints_exactly_spec_witness :
    ∃ e, matchesEndpoint e menuFetchDishesRequest.method menuFetchDishesRequest.path :=
  endpoints_exactly_spec.1 Page.menu menuFetchDishesRequest rfl

/-- Counterexample to claim C4: the hardcoded base URLs of the pages do not
all denote the same service address; the Admin page posts to port 5000
while the WasteTrend page posts to port 5001. -/
theorem single_backend_counterexample :
    pageBaseURL Page.admin ≠ pageBaseURL Page.wasteTrend ∧
    pageBaseURL Page.admin = "http://127.0.0.1:5000" ∧
    pageBaseURL Page.wasteTrend = "http://127.0.0.1:5001" := by
  refine ⟨?_, rfl, rfl⟩
  decide

/-- Claim C4 as amended: every request a page issues uses the hardcoded
base URL of that page, and the base URLs denote exactly two service
addresses, port 5000 for Admin and TrashOfToday and port 5001 for the
other four pages. -/
theorem hardcoded_base_urls_amended :
    (∀ p r, pageIssues p r → r.base = pageBaseURL p) ∧
    pageBaseURL Page.admin = "http://127.0.0.1:5000" ∧
    pageBaseURL Page.trashOfToday = "http://127.0.0.1:5000" ∧
    pageBaseURL Page.menu = "http://127.0.0.1:5001" ∧
    pageBaseURL Page.metrics = "http://127.0.0.1:5001" ∧
    pageBaseURL Page.optimizeMenu = "http://127.0.0.1:5001" ∧
    pageBaseURL Page.wasteTrend = "http://127.0.0.1:5001" := by
  refine ⟨?_, rfl, rfl, rfl, rfl, rfl, rfl⟩
  intro p r h
  cases p with
  | menu => subst h; rfl
  | metrics =>
      rcases h with h | h | h | ⟨d, hd, h⟩ <;> subst h <;> rfl
  | optimizeMenu => rcases h with h | h <;> subst h <;> rfl
  | wasteTrend => subst h; rfl
  | admin => subst h; rfl
  | trashOfToday => rcases h with ⟨d, h⟩; subst h; rfl

/-- Witness for claim C4 as amended: applying the theorem at the Admin page
and its request. -/
theorem hardcoded_base_urls_amended_witness :
    adminAddDayRequest.base = pageBaseURL Page.admin :=
  hardcoded_base_urls_amended.1 Page.admin adminAddDayRequest rfl

/-- Counterexample to claim C2: the message shown on a failed
`/predict_waste_impact` request is not request-independent, and it surfaces
the server-supplied error content when the response carries one. -/
theorem static_error_message_counterexample :
    impactErrorMessage ⟨some "Dish not found"⟩ ≠ impactErrorMessage ⟨none⟩ ∧
    impactErrorMessage ⟨some "Dish not found"⟩ = "Dish not found" := by
  constructor
  · decide
  · rfl

/-- Claim C2 as amended: every failing request is caught at its call site
and no handler retries (each submit handler emits at most one request per
invocation, also on failure); the five form-submit handlers show the
server-supplied error string when the response carries a non-empty one,
and a static fallback string otherwise. -/
theorem error_messages_amended :
    ∀ e : HttpError,
      (e.responseError = none →
        impactErrorMessage e = "Failed to compute impact. Try another dish." ∧
        dayErrorMessage e = "Could not load top dish for that date." ∧
        addDayErrorMessage e = "Failed to add day. Check the data." ∧
        optimizeErrorMessage e = "Failed to optimize menu. Check constraints." ∧
        trendErrorMessage e = "Failed to generate chart. Check the dates.") ∧
      (∀ m, m ≠ "" → e.responseError = some m →
        impactErrorMessage e = m ∧ dayErrorMessage e = m ∧
        addDayErrorMessage e = m ∧ optimizeErrorMessage e = m ∧
        trendErrorMessage e = m) ∧
      (∀ s o, (metricsHandleImpactSubmit s o).2.length ≤ 1) ∧
      (∀ s o, (metricsHandleTopDishDay s o).2.length ≤ 1) ∧
      (∀ jsNum s o, (optimizeHandleSubmit jsNum s o).2.length ≤ 1) ∧
      (∀ pf s o, (adminHandleSubmit pf s o).2.length ≤ 1) ∧
      (∀ s o, (wasteTrendHandleSubmit s o).2.length ≤ 1) := by
  intro e
  refine ⟨?_, ?_, ?_, ?_, ?_, ?_, ?_⟩
  · intro h
    simp [impactErrorMessage, dayErrorMessage, addDayErrorMessage,
      optimizeErrorMessage, trendErrorMessage, jsOrString, h]
  · intro m hm h
    simp [impactErrorMessage, dayErrorMessage, addDayErrorMessage,
      optimizeErrorMessage, trendErrorMessage, jsOrString, h, hm]
  · intro s o
    unfold metricsHandleImpactSubmit
    split
    · simp
    · cases o <;> simp
  · intro s o
    unfold metricsHandleTopDishDay
    split
    · simp
    · simp
  · intro jsNum s o
    unfold optimizeHandleSubmit
    cases o <;> simp
  · intro pf s o
    unfold adminHandleSubmit
    cases o <;> simp
  · intro s o
    simp only [wasteTrendHandleSubmit]
    split
    · simp
    · simp

/-- Witness for claim C2 as amended: the five static fallback messages at
an error that carries no server message, by applying the theorem at the
concrete error. -/
theorem error_messages_amended_witness :
    impactErrorMessage ⟨none⟩ = "Failed to compute impact. Try another dish." ∧
    dayErrorMessage ⟨none⟩ = "Could not load top dish for that date." ∧
    addDayErrorMessage ⟨none⟩ = "Failed to add day. Check the data." ∧
    optimizeErrorMessage ⟨none⟩ = "Failed to optimize menu. Check constraints." ∧
    trendErrorMessage ⟨none⟩ = "Failed to generate chart. Check the dates." :=
  (error_messages_amended ⟨none⟩).1 rfl

/-- Each servings-list operation preserves non-emptiness. -/
theorem applyAdminOp_ne_nil (rows : List ServingRow) (op : AdminOp)
    (h : rows ≠ []) : applyAdminOp rows op ≠ [] := by
  cases op with
  | add =>
      show addServingRow rows ≠ []
      simp [addServingRow]
  | remove i =>
      show removeServingRow rows i ≠ []
      by_cases hemp : (rows.eraseIdx i).isEmpty
      · simp [removeServingRow, hemp]
      · simp only [removeServingRow, hemp, if_false, Bool.false_eq_true]
        simpa [List.isEmpty_iff] using hemp
  | change i f v =>
      show handleServingChange rows i f v ≠ []
      unfold handleServingChange
      cases hidx : rows[i]? with
      | none => simpa using h
      | some r =>
          intro hc
          have hlen : rows.length = 0 := by simpa using congrArg List.length hc
          exact h (List.length_eq_zero.mp hlen)

/-- Claim C9: starting from the single blank row, any sequence of add,
remove and field-change operations leaves the Admin servings list
non-empty, and removing the only remaining row yields the single blank
row. -/
theorem admin_servings_never_empty :
    (∀ ops : List AdminOp, 1 ≤ (runAdminOps ops).length) ∧
    (∀ r : ServingRow, removeServingRow [r] 0 = [blankServingRow]) := by
  constructor
  · have key : ∀ (ops : List AdminOp) (rows : List ServingRow), rows ≠ [] →
        ops.foldl applyAdminOp rows ≠ [] := by
      intro ops
      induction ops with
      | nil => intro rows h; simpa using h
      | cons op ops ih =>
          intro rows h
          exact ih _ (applyAdminOp_ne_nil rows op h)

    intro ops
    have h := key ops [blankServingRow] (by simp)
    have := List.length_pos.mpr (by simpa [runAdminOps] using h)
    simpa [runAdminOps] using this
  · intro r
    simp [removeServingRow, List.eraseIdx]

/-- Claim C6: submitting the Waste Trend form with an empty start or end
date issues no request, shows the fixed validation message and clears the
chart; the request is issued exactly when both dates are non-empty. -/
theorem waste_trend_requires_dates :
    ∀ (s : WasteTrendState) (o : Outcome TrendResponse),
      ((s.startDate = "" ∨ s.endDate = "") →
        (wasteTrendHandleSubmit s o).2 = [] ∧
        (wasteTrendHandleSubmit s o).1.status =
          some ⟨"error", "Please select both start and end dates."⟩ ∧
        (wasteTrendHandleSubmit s o).1.chartData = none) ∧
      (s.startDate ≠ "" → s.endDate ≠ "" →
        (wasteTrendHandleSubmit s o).2 = [wasteTrendRequest]) := by
  intro s o
  constructor
  · intro h
    simp [wasteTrendHandleSubmit, h]
  · intro h1 h2
    simp [wasteTrendHandleSubmit, h1, h2]

/-- Witness for claim C6: a submission with an empty start date, at a
concrete state and outcome. -/
theorem waste_trend_requires_dates_witness :
    (wasteTrendHandleSubmit ⟨"", "2024-01-02", none, none, false⟩ (.httpError ⟨none⟩)).2 = [] ∧
    (wasteTrendHandleSubmit ⟨"", "2024-01-02", none, none, false⟩ (.httpError ⟨none⟩)).1.status =
      some ⟨"error", "Please select both start and end dates."⟩ ∧
    (wasteTrendHandleSubmit ⟨"", "2024-01-02", none, none, false⟩
        (.httpError ⟨none⟩)).1.chartData = none :=
  (waste_trend_requires_dates ⟨"", "2024-01-02", none, none, false⟩
    (.httpError ⟨none⟩)).1 (Or.inl rfl)

/-- Folding with an append of singletons is a map. -/
theorem foldl_append_singleton_eq_map {α β : Type} (f : α → β) (l : List α)
    (acc : List β) :
    l.foldl (fun a x => a ++ [f x]) acc = acc ++ l.map f := by
  induction l generalizing acc with
  | nil => simp
  | cons x xs ih => simp [ih]

/-- Claim C5: each submission of the Menu Optimizer form posts to
`/optimize_menu` exactly the constraints of the form state, with the
quantity range as the converted pair, the converted dish counts, the
per-dish bounds converted and keyed by the stringified dish ids, the four
category flags and the selected ids; on success the returned
`optimization_result` is stored unchanged for rendering. -/
theorem optimize_submit_payload_and_render :
    ∀ (jsNum : String → ℚ) (s : OptimizeState) (res : OptimizeResponse)
      (o : Outcome OptimizeResponse),
      buildOptimizePayload jsNum s =
        { total_quantity_range := (jsNumberOf jsNum s.totalMin, jsNumberOf jsNum s.totalMax),
          num_dishes := jsNumberOf jsNum s.numDishes,
          dish_constraints := s.constraints.map (fun p =>
            (p.1, (jsNumberOf jsNum p.2.min, jsNumberOf jsNum p.2.max))),
          category_requirements := s.requirements,
          available_dishes := s.selectedIds } ∧
      (optimizeHandleSubmit jsNum s o).2 =
        [(optimizeSubmitRequest, buildOptimizePayload jsNum s)] ∧
      (optimizeHandleSubmit jsNum s (.ok res)).1.result = some res.optimization_result ∧
      (optimizeHandleSubmit jsNum s (.ok res)).1.error = none := by
  intro jsNum s res o
  refine ⟨?_, ?_, rfl, rfl⟩
  · simp only [buildOptimizePayload, foldl_append_singleton_eq_map, List.nil_append]
  · cases o <;> rfl

/-- Pointwise form of the serving-row mapping of Admin.handleSubmit: the
truthiness guard on `image_path` is equivalent to being non-blank after
trimming. -/
theorem addDayServing_map_eq {α : Type} (pf : String → α) (s : ServingRow) :
    (if s.image_path != "" && jsTrim s.image_path != "" then
      (⟨jsTrim s.dish_name, pf s.quantity, some (jsTrim s.image_path)⟩ : PayloadServing α)
    else
      ⟨jsTrim s.dish_name, pf s.quantity, none⟩) =
    ⟨jsTrim s.dish_name, pf s.quantity,
      if jsTrim s.image_path = "" then none else some (jsTrim s.image_path)⟩ := by
  by_cases ht : jsTrim s.image_path = ""
  · simp [ht]
  · have hne : s.image_path ≠ "" := by
      intro he
      rw [he] at ht
      exact ht rfl
    simp [ht, hne]

/-- Claim C8: the servings of the `/add_day` payload are exactly the rows
whose `dish_name` is non-blank after trimming, each with the trimmed name,
the converted quantity and an `image_path` field present precisely when
the row has one that is non-blank after trimming; no blank-named row
contributes an entry. -/
theorem add_day_payload_filters_blank_rows :
    ∀ (α : Type) (pf : String → α) (rows : List ServingRow),
      buildAddDayServings pf rows =
        (rows.filter (fun r => jsTrim r.dish_name != "")).map (fun r =>
          ⟨jsTrim r.dish_name, pf r.quantity,
            if jsTrim r.image_path = "" then none else some (jsTrim r.image_path)⟩) ∧
      ∀ e ∈ buildAddDayServings pf rows, e.dish_name ≠ "" := by
  intro α pf rows
  have hmap : buildAddDayServings pf rows =
      (rows.filter (fun r => jsTrim r.dish_name != "")).map (fun r =>
        ⟨jsTrim r.dish_name, pf r.quantity,
          if jsTrim r.image_path = "" then none else some (jsTrim r.image_path)⟩) := by
    unfold buildAddDayServings
    apply List.map_congr_left
    intro r _
    exact addDayServing_map_eq pf r
  refine ⟨hmap, ?_⟩
  intro e he
  rw [hmap] at he
  obtain ⟨r, hr, rfl⟩ := List.mem_map.mp he
  have hname := (List.mem_filter.mp hr).2
  simp only [bne_iff_ne, ne_eq, decide_not] at hname
  simpa using hname

/-- Witness for claim C8: a one-row form whose payload entry keeps the
non-blank trimmed name, by applying the theorem at a concrete conversion
and row list. -/
theorem add_day_payload_filters_blank_rows_witness :
    (⟨"a", (0 : ℚ), none⟩ : PayloadServing ℚ).dish_name ≠ "" :=
  (add_day_payload_filters_blank_rows ℚ (fun _ => 0) [⟨"a", "1", ""⟩]).2
    ⟨"a", (0 : ℚ), none⟩ (by decide)

/-- The dish-name fold over the servings of one day adds exactly the truthy
names of those servings. -/
theorem servingNamesFold_eq (ss : List Serving) (acc : Finset String) :
    ss.foldl (fun a s =>
      match s.dish_name with
      | some n => if n = "" then a else insert n a
      | none => a) acc
      = acc ∪ ((ss.filterMap Serving.dish_name).filter (fun n => n != "")).toFinset := by
  induction ss generalizing acc with
  | nil => simp
  | cons s ss ih =>
      cases hs : s.dish_name with
      | none =>
          simp only [List.foldl_cons, hs]
          rw [ih]
          simp [List.filterMap_cons, hs]
      | some n =>
          by_cases hn : n = ""
          · subst hn
            simp only [List.foldl_cons, hs, if_pos rfl]
            rw [ih]
            simp [List.filterMap_cons, hs]
          · simp only [List.foldl_cons, hs, if_neg hn]
            rw [ih]
            simp [List.filterMap_cons, hs, hn, Finset.insert_union, Finset.union_insert]

/-- The day fold of Metrics.fetchSummary collects the truthy dish names of
all days. -/
theorem dayNamesFold_eq (days : List DayRecord) (acc : Finset String) :
    days.foldl (fun acc day =>
      (day.servings.getD []).foldl (fun a s =>
        match s.dish_name with
        | some n => if n = "" then a else insert n a
        | none => a) acc) acc
      = acc ∪ (days.flatMap (fun day =>
          ((day.servings.getD []).filterMap Serving.dish_name).filter
            (fun n => n != ""))).toFinset := by
  induction days generalizing acc with
  | nil => simp
  | cons d ds ih =>
      simp only [List.foldl_cons]
      rw [servingNamesFold_eq, ih]
      simp [List.flatMap_cons, Finset.union_assoc]

/-- The dish-name set of Metrics.fetchSummary is the set of truthy dish
names. -/
theorem collectDishNames_eq (days : List DayRecord) :
    collectDishNames days = truthyDishNames days := by
  unfold collectDishNames truthyDishNames
  rw [dayNamesFold_eq]
  simp

/-- The waste fold of Metrics.fetchSummary computes the sum of the
`total_waste` fields, an absent one contributing zero. -/
theorem foldl_totalWaste_eq (l : List DayRecord) (a : ℚ) :
    l.foldl (fun acc day => acc + day.total_waste.getD 0) a = a + wasteSum l := by
  induction l generalizing a with
  | nil => simp [wasteSum]
  | cons d ds ih =>
      rw [List.foldl_cons, ih]
      simp [wasteSum, add_assoc]

/-- Counterexample to claim C7: on a day whose only serving has the
empty-string `dish_name`, the code computes `dishCount = 0`, while the
number of distinct `dish_name` values across the servings is `1`; the code
counts only truthy names. -/
theorem metrics_summary_counterexample :
    fetchSummaryResult (.ok (.arr [⟨some 5, some [⟨some ""⟩]⟩])) =
      some ⟨1, 5, 5, 0⟩ ∧
    (specDishNameValues [⟨some 5, some [⟨some ""⟩]⟩]).card = 1 := by
  constructor
  · simp [fetchSummaryResult, collectDishNames]
  · simp [specDishNameValues]

/-- Claim C7 as amended: for a non-empty array response the summary holds
the number of days, the waste total (absent values contributing zero), the
average as total over count, and the number of distinct truthy (present
and non-empty) `dish_name` values; a failed call, a non-array body or an
empty array leave the summary `null`. -/
theorem metrics_summary_amended :
    ∀ days : List DayRecord,
      (days ≠ [] →
        fetchSummaryResult (.ok (.arr days)) =
          some ⟨days.length, wasteSum days / (days.length : ℚ), wasteSum days,
            (truthyDishNames days).card⟩) ∧
      fetchSummaryResult (.ok .notArray) = none ∧
      fetchSummaryResult (.ok (.arr [])) = none ∧
      (∀ e, fetchSummaryResult (.httpError e) = none) := by
  intro days
  refine ⟨?_, rfl, rfl, fun e => rfl⟩
  intro h
  have hlen : ¬days.length = 0 := by
    simpa [List.length_eq_zero] using h
  simp only [fetchSummaryResult]
  rw [if_neg hlen, foldl_totalWaste_eq, collectDishNames_eq]
  simp

/-- Witness for claim C7 as amended: the summary of a concrete single-day
response, by applying the theorem at that response. -/
theorem metrics_summary_amended_witness :
    fetchSummaryResult (.ok (.arr [⟨some 4, some [⟨some "rice"⟩, ⟨none⟩]⟩])) =
      some ⟨1, 4, 4, 1⟩ := by
  have h := (metrics_summary_amended [⟨some 4, some [⟨some "rice"⟩, ⟨none⟩]⟩]).1 (by simp)
  rw [h]
  simp [wasteSum, truthyDishNames]

/-- Counterexample to claim C3: the WasteTrend page calls the backend, but
its request is not issued by a mount effect (the page has none); it is
emitted by a form-submission handler. -/
theorem fetch_on_mount_counterexample :
    pageIssues Page.wasteTrend wasteTrendRequest ∧
    mountRequests "2024-01-01" Page.wasteTrend = [] ∧
    (wasteTrendHandleSubmit ⟨"2024-01-01", "2024-01-02", none, none, false⟩
        (.httpError ⟨none⟩)).2 = [wasteTrendRequest] := by
  refine ⟨rfl, rfl, ?_⟩
  simp [wasteTrendHandleSubmit]

/-- Claim C3 as amended: every request a page can issue is either a mount
fetch (issued once by an effect with an empty dependency list: Menu,
Metrics, OptimizeMenu, TrashOfToday) or a form-submission request (Metrics
impact and top-dish forms, OptimizeMenu, WasteTrend, Admin), and every
handler invocation emits at most one request, so no trigger retries. -/
theorem request_triggers_amended :
    (∀ p r, pageIssues p r →
      (∃ t, r ∈ mountRequests t p) ∨ submitCanIssue p r) ∧
    (∀ s o, (metricsHandleImpactSubmit s o).2.length ≤ 1) ∧
    (∀ s o, (metricsHandleTopDishDay s o).2.length ≤ 1) ∧
    (∀ jsNum s o, (optimizeHandleSubmit jsNum s o).2.length ≤ 1) ∧
    (∀ pf s o, (adminHandleSubmit pf s o).2.length ≤ 1) ∧
    (∀ s o, (wasteTrendHandleSubmit s o).2.length ≤ 1) := by
  refine ⟨?_, ?_, ?_, ?_, ?_, ?_⟩
  · intro p r h
    cases p with
    | menu =>
        have hr : r = menuFetchDishesRequest := h
        exact .inl ⟨"", by simp [mountRequests, hr]⟩
    | metrics =>
        rcases h with h | h | h | ⟨d, hd, h⟩
        · exact .inl ⟨"", by simp [mountRequests, h]⟩
        · exact .inl ⟨"", by simp [mountRequests, h]⟩
        · refine .inr (.inl ⟨⟨"x", .num 80, none, none, "", none, none⟩,
            .ok ⟨0, ⟨⟨0, 0⟩⟩⟩, ?_⟩)
          simp [metricsHandleImpactSubmit, h]
        · refine .inr (.inr ⟨⟨"", .num 80, none, none, d, none, none⟩,
            .ok ⟨"", ⟨"", 0, ""⟩, 0, 0⟩, ?_⟩)
          simp [metricsHandleTopDishDay, hd, h]
    | optimizeMenu =>
        rcases h with h | h
        · exact .inl ⟨"", by simp [mountRequests, h]⟩
        · refine .inr ⟨fun _ => 0,
            ⟨[], [], .num 0, .num 0, .num 0, ⟨true, true, false, false⟩, none, none, false⟩,
            .ok ⟨⟨0, 0, 0, [], ""⟩⟩, ?_⟩
          simp [optimizeHandleSubmit, h]
    | wasteTrend =>
        have hr : r = wasteTrendRequest := h
        refine .inr ⟨⟨"2024-01-01", "2024-01-02", none, none, false⟩,
          .httpError ⟨none⟩, ?_⟩
        simp [wasteTrendHandleSubmit, hr]
    | admin =>
        have hr : r = adminAddDayRequest := h
        refine .inr ⟨fun _ => 0, ⟨"", "", [blankServingRow], none, false⟩,
          .httpError ⟨none⟩, ?_⟩
        simp [adminHandleSubmit, hr]
    | trashOfToday =>
        rcases h with ⟨d, h⟩
        exact .inl ⟨d, by simp [mountRequests, h]⟩
  · intro s o
    unfold metricsHandleImpactSubmit
    split
    · simp
    · cases o <;> simp
  · intro s o
    unfold metricsHandleTopDishDay
    split
    · simp
    · simp
  · intro jsNum s o
    unfold optimizeHandleSubmit
    cases o <;> simp
  · intro pf s o
    unfold adminHandleSubmit
    cases o <;> simp
  · intro s o
    simp only [wasteTrendHandleSubmit]
    split
    · simp
    · simp

/-- Witness for claim C3 as amended: the Menu request is trigger-classified
by applying the theorem at the concrete page and request. -/
theorem request_triggers_amended_witness :
    (∃ t, menuFetchDishesRequest ∈ mountRequests t Page.menu) ∨
      submitCanIssue Page.menu menuFetchDishesRequest :=
  request_triggers_amended.1 Page.menu menuFetchDishesRequest rfl

/-- Claim C10: responses are applied to the view state in arrival order and
each successful response overwrites the displayed data unconditionally, so
when two requests of the same page overlap, the response arriving last
determines the displayed state; in particular a slow earlier response
overwrites the state set by a newer one. -/
theorem last_response_wins :
    (∀ (s : MetricsFormState) (pre : List (Outcome TopDishData)) (d : TopDishData),
      (processArrivals metricsApplyTopDishOutcome s (pre ++ [.ok d])).topDishDay = some d) ∧
    (∀ (s : MetricsFormState) (dNew dOld : TopDishData),
      (processArrivals metricsApplyTopDishOutcome s [.ok dNew, .ok dOld]).topDishDay =
        some dOld) ∧
    (∀ (s : WasteTrendState) (pre : List (Outcome TrendResponse)) (r : TrendResponse)
      (cd : ChartData), r.success = true → r.chart_data = some cd →
      (processArrivals wasteTrendApplyOutcome s (pre ++ [.ok r])).chartData = some cd) := by
  refine ⟨?_, ?_, ?_⟩
  · intro s pre d
    simp [processArrivals, List.foldl_append, metricsApplyTopDishOutcome]
  · intro s dNew dOld
    simp [processArrivals, metricsApplyTopDishOutcome]
  · intro s pre r cd hs hcd
    obtain ⟨su, cdo⟩ := r
    simp only at hs hcd
    subst hs
    subst hcd
    simp [processArrivals, List.foldl_append, wasteTrendApplyOutcome]

/-- Witness for claim C10: a single successful chart response arriving last
sets the chart data, by applying the theorem at concrete values. -/
theorem last_response_wins_witness :
    (processArrivals wasteTrendApplyOutcome ⟨"", "", none, none, false⟩
        ([] ++ [.ok ⟨true, some ⟨"img", "range", 3⟩⟩])).chartData =
      some ⟨"img", "range", 3⟩ :=
  last_response_wins.2.2 ⟨"", "", none, none, false⟩ []
    ⟨true, some ⟨"img", "range", 3⟩⟩ ⟨"img", "range", 3⟩ rfl rfl

end HackathonUI
